import Mathlib

/-!
Verification of the Multi-Model Prediction & Explanation Pipeline
(`src/app.py`, request handler `upload_csv`, lines 132-238).

The handler is embedded as a pure function `upload_csv`:

* the uploaded CSV (after `pd.read_csv`) is a `Frame`: a list of column
  names plus a list of rows (cells are Python floats, modelled as `ℚ`);
* the pickled XGBoost classifiers are opaque to the repository, so a
  classifier is modelled by its capability record `Model`: row-wise
  `predict`, `predict_proba` and SHAP attribution, each returning
  `Except String _` because any of them can raise (the `String` is the
  Python exception text `str(e)`);
* the single `try/except` of `upload_csv` becomes the `Except` monad:
  the first exception aborts the request and is returned as
  `jsonify({"error": str(e)}), 500` by the handler;
* `uuid.uuid4()` (line 151) is an ambient random draw consumed inside
  the handler; it is modelled as the extra argument `uuid4`, of which
  the handler keeps the first eight characters, exactly as
  `str(uuid.uuid4())[:8]` does.
-/

/-! ### Python/pandas primitives -/

/-- Python `str.strip()` on the character list: drop leading and trailing
whitespace, as `df.columns.str.strip()` (line 140) applies to every column
name.  (Implemented directly on `List Char` so that it evaluates in the
kernel; `String.trim` is extensionally the same on ASCII data.) -/
def stripChars (l : List Char) : List Char :=
  ((l.dropWhile Char.isWhitespace).reverse.dropWhile Char.isWhitespace).reverse

/-- Python `name.strip()` for a column name. -/
def pyStrip (s : String) : String := String.mk (stripChars s.data)

/-- Python `s[:8]`, used for `str(uuid.uuid4())[:8]` (line 151). -/
def pySlice8 (s : String) : String := String.mk (s.data.take 8)

/-- Powers of ten over `ℤ` (kept first-order so the kernel evaluates them). -/
def pow10 : ℕ → ℤ
  | 0 => 1
  | n + 1 => 10 * pow10 n

/-- Powers of ten over `ℕ`. -/
def npow10 : ℕ → ℕ
  | 0 => 1
  | n + 1 => 10 * npow10 n

/-- Round `N / D` (with `D > 0`) to the nearest integer, ties to even:
the rounding used by Python `format(x, ".Nf")` on our exact-rational
model of Python floats. -/
def rheInt (N D : ℤ) : ℤ :=
  let f := N.fdiv D
  let r := N.fmod D
  if 2 * r < D then f
  else if D < 2 * r then f + 1
  else if f % 2 = 0 then f else f + 1

/-- Pad a digit string with leading zeros to length `d`. -/
def padZeros (d : ℕ) (s : String) : String :=
  String.mk (List.replicate (d - s.length) '0') ++ s

/-- Render the rational `N / D` (`D > 0`) with exactly `d` digits after the
decimal point, rounding half to even: the Python format spec `.df` applied
to our rational model of a float.  (Python's `-0.0000` for tiny negative
values is rendered without the sign here; no claim touches that corner.) -/
def formatND (N : ℤ) (D : ℕ) (d : ℕ) : String :=
  let n := rheInt (N * pow10 d) (D : ℤ)
  let sign := if n < 0 then "-" else ""
  let m := n.natAbs
  if d = 0 then sign ++ toString m
  else sign ++ toString (m / npow10 d) ++ "." ++ padZeros d (toString (m % npow10 d))

/-- Python `f"{q:.df}"` for a float modelled as `q : ℚ`. -/
def formatFixed (q : ℚ) (d : ℕ) : String := formatND q.num q.den d

/-- Python `f"{p*100:.df}%"` (probability as a percentage), as used at
lines 159 and 220. The multiplication by 100 is carried out on the
numerator. -/
def pct (p : ℚ) (d : ℕ) : String := formatND (p.num * 100) p.den d ++ "%"

/-! ### The uploaded table and pandas column selection -/

/-- The parsed CSV: `pd.read_csv(file)`.  Column names and a list of data
rows (row `i`, column `j` is `rows[i][j]`).  `read_csv` mangles duplicate
raw headers, but after `str.strip` duplicate names can appear. -/
structure Frame where
  cols : List String
  rows : List (List ℚ)
deriving DecidableEq, Repr

/-- All positions of label `n` in a column index, ascending: pandas
`get_indexer_non_unique` collects every occurrence of a requested label. -/
def posOf : List String → String → List ℕ
  | [], _ => []
  | c :: t, n =>
    let rest := (posOf t n).map (· + 1)
    if c = n then 0 :: rest else rest

/-- The column positions selected by `df[names]`: for each requested label,
in request order, all matching source positions. -/
def selectIdxs (names cols : List String) : List ℕ :=
  names.flatMap (posOf cols)

/-- The requested labels absent from the column index; pandas raises
`KeyError` listing exactly these when the list is nonempty. -/
def selectMissing (names cols : List String) : List String :=
  names.filter (fun n => decide (n ∉ cols))

/-- pandas `df[names]` (label-based column selection, lines 143 and 144):
if every requested label is present, re-project the frame onto the
selected positions; otherwise raise `KeyError` with the missing labels. -/
def selectCols (f : Frame) (names : List String) : Except (List String) Frame :=
  if (selectMissing names f.cols).isEmpty then
    .ok ⟨(selectIdxs names f.cols).map (fun i => f.cols.getD i ""),
         f.rows.map (fun r => (selectIdxs names f.cols).map (fun i => r.getD i 0))⟩
  else .error (selectMissing names f.cols)

/-- Lines 140-144 of `upload_csv` (the spec's Feature Schema Reconciler):
strip whitespace from the column names, keep only columns whose stripped
name is an expected feature, then re-project into schema order with
`df[expected_features]`; a missing schema feature surfaces as the pandas
`KeyError` listing the missing names. -/
def reconcile (expected_features : List String) (f : Frame) :
    Except (List String) Frame := do
  let f1 : Frame := ⟨f.cols.map pyStrip, f.rows⟩
  let keep := f1.cols.filter (fun c => decide (c ∈ expected_features))
  let f2 ← selectCols f1 keep
  selectCols f2 expected_features

/-! ### The model registry -/

/-- A trained binary classifier from `best_xgb_models.pkl`, opaque to the
repository and modelled by the capabilities `upload_csv` uses.  sklearn-style
classifiers operate row-wise on a frame; the handler keeps index `[0]` of
each returned array (lines 154-155, 166), so the capabilities are given on a
single row.  Each call is fallible (`Except`), the error being the Python
exception text; `shapRow` covers the whole attribution computation
`shap.Explainer(model)(df).values[0]` (lines 162-163).  `predictRow` and
`probaRow` are two independent capabilities, exactly as `model.predict` and
`model.predict_proba` are two independent calls in the source; nothing in
the pipeline links their results.  `probaRow` returns the pair
`(predict_proba(df)[0][0], predict_proba(df)[0][1])`. -/
structure Model where
  predictRow : List ℚ → Except String ℤ
  probaRow : List ℚ → Except String (ℚ × ℚ)
  shapRow : List ℚ → Except String (List ℚ)

/-- What `upload_csv` accumulates for one antibiotic: the key of
`predictions` / `probabilities`, plus the explanation block appended to
`explanations` when `pred == 1`. -/
structure ModelRow where
  abx : String
  pred : ℤ
  prob : ℚ
  expl : Option String
deriving DecidableEq, Repr

/-- The two exception shapes the `except` clause at lines 237-238 can
receive: the pandas `KeyError` from reconciliation (carrying the missing
labels) or an exception text from a model / SHAP call.  Both are rendered
to the caller as `jsonify({"error": str(e)}), 500`. -/
inductive PipelineError where
  | keyError (missing : List String)
  | modelError (cause : String)
deriving DecidableEq, Repr

/-! ### Attribution ranking (lines 161-167) -/

/-- pandas `DataFrame(...).sort_values(by="shap", key=abs, ascending=False)`:
pandas `nargsort` reverses the array, argsorts it ascending, and reverses
the resulting order, so with a stable argsort (numpy's introsort is an
insertion sort on the small arrays at hand) a descending sort keeps tied
elements in their original order.  Modelled with the stable
`List.insertionSort` on `|shap|`. -/
def sortValuesDescAbs (l : List (String × ℚ)) : List (String × ℚ) :=
  (List.insertionSort (fun a b => |a.2| ≤ |b.2|) l.reverse).reverse

/-- `top_df` of lines 164-167: pair the frame's columns with the row's SHAP
values, sort by descending absolute contribution, keep the head (5). -/
def topFeatures (cols : List String) (sv : List ℚ) : List (String × ℚ) :=
  (sortValuesDescAbs (cols.zip sv)).take 5

/-- One `<li>` of the explanation block (line 183): feature name and
`f"{shap:.4f}"`. -/
def liItem (p : String × ℚ) : String :=
  "<li>" ++ p.1 ++ " (Impact: " ++ formatFixed p.2 4 ++ ")</li>"

/-- `shap_path` of line 174. -/
def shapPath (uid abx : String) : String :=
  "static/shap_" ++ uid ++ "_" ++ abx ++ ".png"

/-- The explanation HTML block appended at lines 179-187. -/
def explanationHtml (uid abx : String) (top : List (String × ℚ)) : String :=
  "\n                    <div class=\x27section\x27>\n                        <h4>" ++
  abx ++ " - Top 5 Contributing Features</h4>\n                        <ol>\n                            " ++
  String.join (top.map liItem) ++
  "\n                        </ol>\n                        <img src=\x27/" ++
  shapPath uid abx ++ "\x27 class=\x27shap-img\x27>\n                    </div>\n                "

/-! ### The per-model loop (lines 153-187) -/

/-- The `for abx, model in models.items()` loop: for each antibiotic,
`pred = int(model.predict(df)[0])`, `prob = float(model.predict_proba(df)[0][1])`,
and, when `pred == 1`, the SHAP explanation block.  Any exception aborts
the whole loop (there is no per-label `try`), which the `Except` monad
reproduces: the first failure is the handler's result. -/
def processModels (uid : String) (cols : List String) (row0 : List ℚ) :
    List (String × Model) → Except PipelineError (List ModelRow)
  | [] => .ok []
  | (abx, m) :: rest => do
    let pred ← (m.predictRow row0).mapError PipelineError.modelError
    let probs ← (m.probaRow row0).mapError PipelineError.modelError
    let prob := probs.2
    let expl ←
      if pred = 1 then do
        let sv ← (m.shapRow row0).mapError PipelineError.modelError
        pure (some (explanationHtml uid abx (topFeatures cols sv)))
      else
        pure (none : Option String)
    let rows ← processModels uid cols row0 rest
    pure (⟨abx, pred, prob, expl⟩ :: rows)

/-! ### Report assembly (lines 189-235) -/

/-- Line 159: `[abx, "Resistant" if pred else "Sensitive", f"{prob*100:.2f}%"]`
(note the truthiness test `if pred`). -/
def csvRowFor (r : ModelRow) : String × String × String :=
  (r.abx, if r.pred ≠ 0 then "Resistant" else "Sensitive", pct r.prob 2)

/-- The fixed no-resistance message of line 198. -/
def noResistanceMsg : String :=
  "All antibiotics show low resistance risk. Proceed with standard empiric treatment."

/-- The clinical-suggestion block of lines 190-198: a `<ul>` of the
resistant antibiotics (`predictions[abx] == 1`) when `any(predictions.values())`,
else the fixed message. -/
def tipsFor (rows : List ModelRow) : String :=
  if rows.any (fun r => r.pred ≠ 0) then
    "<ul>" ++
    String.join ((rows.filter (fun r => r.pred = 1)).map (fun r =>
      "<li>Avoid prescribing <b>" ++ r.abx ++ "</b>. Consider alternative therapy.</li>")) ++
    "</ul>"
  else noResistanceMsg

/-- One PDF body line (line 212): `f"{abx}: {label} ({prob})"`. -/
def pdfLineFor (t : String × String × String) : String :=
  t.1 ++ ": " ++ t.2.1 ++ " (" ++ t.2.2 ++ ")"

/-- One prediction pill (lines 217-221).  The verdict label here is
`"Resistant" if predictions[abx] == 1 else "susceptible"` and the
percentage is `f"{probabilities[abx]*100:.0f}%"`. -/
def pillFor (abx : String) (pred : ℤ) (prob : ℚ) : String :=
  let label := if pred = 1 then "Resistant" else "susceptible"
  let color := if pred = 1 then "resistant" else "susceptible"
  "<div class=\x27pill " ++ color ++ "\x27>" ++ abx ++ "&nbsp;&nbsp;" ++ label ++
  " (" ++ pct prob 0 ++ ")</div>"

/-- The final HTML fragment returned at lines 224-235. -/
def finalHtml (pill tips : String) (explanations : List String)
    (csv_file pdf_path : String) : String :=
  "\n            <div class=\x27result-row\x27>" ++ pill ++
  "</div>\n            <div class=\x27section\x27>\n                <h3>Clinical Suggestion</h3>\n                " ++
  tips ++ "\n            </div>\n            " ++ String.join explanations ++
  "\n            <div class=\x27btn-group\x27>\n                <a href=\x27/" ++
  csv_file ++ "\x27 download>Download CSV</a>\n                <a href=\x27/" ++
  pdf_path ++ "\x27 download>Download PDF</a>\n            </div>\n        "

/-- Everything the request produces on success: the accumulated per-model
data, the CSV rows written at line 202, the PDF text cells written at
lines 209-212, the artifact paths (lines 201, 205), the pill / tips /
explanation fragments and the final HTML.  (`predictions` and
`probabilities` are the projections of `rows`.) -/
structure Output where
  rows : List ModelRow
  csv_rows : List (String × String × String)
  explanations : List String
  tips : String
  csv_file : String
  pdf_path : String
  pdf_lines : List String
  pill_html : String
  html : String
deriving DecidableEq, Repr

/-- Assemble the `Output` from the loop's accumulations (lines 189-235). -/
def mkOutput (uid : String) (rows : List ModelRow) : Output :=
  let csv_rows := rows.map csvRowFor
  let tips := tipsFor rows
  let csv_file := "static/report_" ++ uid ++ ".csv"
  let pdf_path := "static/report_" ++ uid ++ ".pdf"
  let pdf_lines := "UTI Antimicrobial Resistance Report" :: csv_rows.map pdfLineFor
  let pill_html := String.join (rows.map (fun r => pillFor r.abx r.pred r.prob))
  let explanations := rows.filterMap (fun r => r.expl)
  ⟨rows, csv_rows, explanations, tips, csv_file, pdf_path, pdf_lines, pill_html,
   finalHtml pill_html tips explanations csv_file pdf_path⟩

/-- The request handler `upload_csv` (lines 132-238) after `pd.read_csv`:
reconcile the frame against the schema, run every registered model on data
row 0, and assemble the report.  `uuid4` is the ambient `uuid.uuid4()` draw
of line 151 (the handler, not the HTTP caller, consumes it); `models` is
the registry dict in insertion order; `expected_features` the pickled
schema.  A raised exception becomes `.error` (the JSON 500 of lines
237-238).  When the frame has no data row and at least one model is
registered, `model.predict(df)[0]` raises the usual IndexError. -/
def upload_csv (models : List (String × Model)) (expected_features : List String)
    (uuid4 : String) (f : Frame) : Except PipelineError Output := do
  let df ← (reconcile expected_features f).mapError PipelineError.keyError
  let uid := pySlice8 uuid4
  let rows ←
    match df.rows.head?, models with
    | _, [] => pure []
    | some row0, ms => processModels uid df.cols row0 ms
    | none, _ :: _ =>
      throw (PipelineError.modelError "index 0 is out of bounds for axis 0 with size 0")
  pure (mkOutput uid rows)


/-- The `(abx, pred, prob)` core of an accumulated row, without the
explanation block (used to state which outputs ignore the request `uid`). -/
def rowData (r : ModelRow) : String × ℤ × ℚ := (r.abx, r.pred, r.prob)

deriving instance DecidableEq for Except

/-! ### Objects for the concrete runs below -/

/-- 0.03 as a reduced fraction (so every comparison evaluates in the kernel). -/
def q03 : ℚ := ⟨3, 100, by decide, by decide⟩

/-- 0.97 as a reduced fraction. -/
def q97 : ℚ := ⟨97, 100, by decide, by decide⟩

/-- 0.2 as a reduced fraction. -/
def q20 : ℚ := ⟨1, 5, by decide, by decide⟩

/-- 0.8 as a reduced fraction. -/
def q80 : ℚ := ⟨4, 5, by decide, by decide⟩

/-- A deterministic classifier that selects the sensitive class, with
`predict_proba = (0.97, 0.03)`. -/
def mSens : Model := ⟨fun _ => .ok 0, fun _ => .ok (q97, q03), fun _ => .ok []⟩

/-- A deterministic classifier that selects the resistant class, with
`predict_proba = (0.2, 0.8)` and SHAP attributions `[2, -1]`. -/
def mRes : Model := ⟨fun _ => .ok 1, fun _ => .ok (q20, q80), fun _ => .ok [2, -1]⟩

/-- A classifier whose two capabilities disagree: `predict` selects class 0
while `predict_proba` assigns mass 0.97 to class 1 — e.g. two independent
draws of a stochastic classifier, which the capability interface of the
source permits. -/
def mIncons : Model := ⟨fun _ => .ok 0, fun _ => .ok (q03, q97), fun _ => .ok []⟩

/-- A classifier whose `predict` raises. -/
def mPredFail : Model :=
  ⟨fun _ => .error "division by zero", fun _ => .ok (q20, q80), fun _ => .ok []⟩

/-- A resistant-predicting classifier whose SHAP attribution computation
raises. -/
def mShapFail : Model :=
  ⟨fun _ => .ok 1, fun _ => .ok (q20, q80), fun _ => .error "shap explainer failed"⟩

/-- What one successful loop iteration guarantees about the accumulated
`ModelRow` for a registry entry. -/
def rowSpec (uid : String) (cols : List String) (row0 : List ℚ)
    (p : String × Model) (r : ModelRow) : Prop :=
  r.abx = p.1 ∧ p.2.predictRow row0 = .ok r.pred ∧
  (∃ q : ℚ × ℚ, p.2.probaRow row0 = .ok q ∧ r.prob = q.2) ∧
  ((r.pred ≠ 1 ∧ r.expl = none) ∨
   (r.pred = 1 ∧ ∃ sv, p.2.shapRow row0 = .ok sv ∧
      r.expl = some (explanationHtml uid p.1 (topFeatures cols sv))))

/-- `topFeatures` with each candidate carrying its original position in the
frame (its index in `df.columns`), used to state the tie-breaking order of
the attribution ranking. -/
def topIdx (cols : List String) (sv : List ℚ) : List (ℕ × (String × ℚ)) :=
  ((List.insertionSort (fun a b => |a.2.2| ≤ |b.2.2|)
      ((cols.zip sv).enum).reverse).reverse).take 5

/-- The schema features absent from the stripped column names of a frame:
what the pandas `KeyError` of line 144 reports. -/
def missingFeatures (expected : List String) (f : Frame) : List String :=
  selectMissing expected (f.cols.map pyStrip)

/-- A single-row frame presented as an association list of raw column name
to cell value (used to state that reconciliation is independent of the
column order of the raw row). -/
def mkRowFrame (l : List (String × ℚ)) : Frame :=
  ⟨l.map Prod.fst, [l.map Prod.snd]⟩

/-- The CSV-row renderer of line 159 as a function of the `(abx, pred, prob)`
data alone. -/
def csvOfData (t : String × ℤ × ℚ) : String × String × String :=
  (t.1, if t.2.1 ≠ 0 then "Resistant" else "Sensitive", pct t.2.2 2)

/-- The clinical-suggestion block as a function of the `(abx, pred, prob)`
data alone. -/
def tipsOfData (l : List (String × ℤ × ℚ)) : String :=
  if l.any (fun t => t.2.1 ≠ 0) then
    "<ul>" ++
    String.join ((l.filter (fun t => t.2.1 = 1)).map (fun t =>
      "<li>Avoid prescribing <b>" ++ t.1 ++ "</b>. Consider alternative therapy.</li>")) ++
    "</ul>"
  else noResistanceMsg

/-- The textual report content — PDF body lines, CSV rows, clinical tips —
as a function of the `(abx, pred, prob)` data alone. -/
def textReport (l : List (String × ℤ × ℚ)) :
    List String × List (String × String × String) × String :=
  ("UTI Antimicrobial Resistance Report" :: (l.map csvOfData).map pdfLineFor,
   l.map csvOfData, tipsOfData l)

/-- What the interactive pill of lines 217-221 renders for a non-resistant
label: the lowercase verdict `susceptible` and the probability to zero
decimal places. -/
def pillSens (abx : String) (prob : ℚ) : String :=
  "<div class=\x27pill " ++ "susceptible" ++ "\x27>" ++ abx ++ "&nbsp;&nbsp;" ++
  "susceptible" ++ " (" ++ pct prob 0 ++ ")</div>"

/-! ### Selection lemmas -/

theorem posOf_eq_nil_iff (l : List String) (n : String) : posOf l n = [] ↔ n ∉ l := by
  induction l with
  | nil => simp [posOf]
  | cons c t ih =>
    by_cases h : c = n
    · subst h; simp [posOf]
    · simp [posOf, h, ih, Ne.symm h]

theorem posOf_getD (l : List String) (n : String) (i : ℕ) (h : i ∈ posOf l n) :
    l.getD i "" = n := by
  induction l generalizing i with
  | nil => simp [posOf] at h
  | cons c t ih =>
    simp only [posOf] at h
    by_cases hc : c = n
    · rw [if_pos hc] at h
      rcases List.mem_cons.mp h with h0 | hm
      · subst h0; simpa using hc
      · obtain ⟨j, hj, rfl⟩ := List.mem_map.mp hm
        simpa using ih j hj
    · rw [if_neg hc] at h
      obtain ⟨j, hj, rfl⟩ := List.mem_map.mp h
      simpa using ih j hj

theorem posOf_count_one (l : List String) (n : String) (h : l.count n = 1) :
    posOf l n = [l.indexOf n] := by
  induction l with
  | nil => simp at h
  | cons c t ih =>
    by_cases hc : c = n
    · subst hc
      have ht : t.count c = 0 := by
        have := h
        rw [List.count_cons_self] at this
        omega
      have : posOf t c = [] := (posOf_eq_nil_iff t c).mpr (by
        intro hmem
        exact absurd ht (by simpa [List.count_eq_zero] using hmem))
      simp [posOf, this, List.indexOf_cons_self]
    · have ht : t.count n = 1 := by
        have := h
        rw [List.count_cons_of_ne (by simpa using Ne.symm hc)] at this
        exact this
      have hne : (c == n) = false := by simpa using hc
      simp [posOf, hc, ih ht, List.indexOf_cons, hne]

theorem getD_indexOf_self (l : List String) (b : String) (h : b ∈ l) (d : String) :
    l.getD (l.indexOf b) d = b := by
  induction l with
  | nil => simp at h
  | cons c t ih =>
    by_cases hc : c = b
    · subst hc; simp [List.indexOf_cons_self]
    · have hne : (c == b) = false := by simpa using hc
      rcases List.mem_cons.mp h with h0 | hm
      · exact absurd h0.symm hc
      · simpa [List.indexOf_cons, hne] using ih hm

theorem getD_map_indexOf {β : Type} (l : List String) (g : String → β) (b : String)
    (h : b ∈ l) (d : β) : (l.map g).getD (l.indexOf b) d = g b := by
  induction l with
  | nil => simp at h
  | cons c t ih =>
    by_cases hc : c = b
    · subst hc; simp [List.indexOf_cons_self]
    · have hne : (c == b) = false := by simpa using hc
      rcases List.mem_cons.mp h with h0 | hm
      · exact absurd h0.symm hc
      · simpa [List.indexOf_cons, hne] using ih hm

theorem selectMissing_eq_nil_iff (names cols : List String) :
    selectMissing names cols = [] ↔ ∀ n ∈ names, n ∈ cols := by
  simp [selectMissing, List.filter_eq_nil_iff]

theorem selectIdxs_of_count_one (names cols : List String)
    (h : ∀ n ∈ names, cols.count n = 1) :
    selectIdxs names cols = names.map (fun n => cols.indexOf n) := by
  induction names with
  | nil => rfl
  | cons a t ih =>
    have ha := posOf_count_one cols a (h a (List.mem_cons_self a t))
    have ht := ih (fun n hn => h n (List.mem_cons_of_mem a hn))
    simp [selectIdxs, List.flatMap_cons, ha] at *
    simpa [selectIdxs] using ht

theorem selectCols_of_count_one (f : Frame) (names : List String)
    (h : ∀ n ∈ names, f.cols.count n = 1) :
    selectCols f names = .ok ⟨names,
      f.rows.map (fun r => names.map (fun n => r.getD (f.cols.indexOf n) 0))⟩ := by
  have hmem : ∀ n ∈ names, n ∈ f.cols := by
    intro n hn
    have := h n hn
    have : 0 < f.cols.count n := by omega
    exact List.count_pos_iff.mp this
  rw [selectCols, if_pos (by rw [(selectMissing_eq_nil_iff names f.cols).mpr hmem]; rfl)]
  have hcols : (selectIdxs names f.cols).map (fun i => f.cols.getD i "") = names := by
    rw [selectIdxs_of_count_one names f.cols h, List.map_map]
    have hpt : ∀ n ∈ names, (fun i => f.cols.getD i "") ((fun n => f.cols.indexOf n) n) = n := by
      intro n hn
      exact getD_indexOf_self f.cols n (hmem n hn) ""
    calc names.map _ = names.map id := List.map_congr_left hpt
    _ = names := List.map_id names
  have hrows : ∀ r : List ℚ, (selectIdxs names f.cols).map (fun i => r.getD i 0)
      = names.map (fun n => r.getD (f.cols.indexOf n) 0) := by
    intro r
    rw [selectIdxs_of_count_one names f.cols h, List.map_map]
    rfl
  simp only [hcols, hrows]

theorem mem_posOf_map (cols : List String) (a n : String) :
    n ∈ (posOf cols a).map (fun i => cols.getD i "") ↔ n = a ∧ a ∈ cols := by
  constructor
  · intro h
    obtain ⟨i, hi, rfl⟩ := List.mem_map.mp h
    refine ⟨posOf_getD cols a i hi, ?_⟩
    by_contra hmem
    rw [← posOf_eq_nil_iff] at hmem
    simp [hmem] at hi
  · rintro ⟨rfl, hmem⟩
    have hne : posOf cols n ≠ [] := by
      rw [Ne, posOf_eq_nil_iff]
      exact not_not_intro hmem
    obtain ⟨i, hi⟩ := List.exists_mem_of_ne_nil _ hne
    exact List.mem_map.mpr ⟨i, hi, posOf_getD cols n i hi⟩

theorem mem_selectIdxs_map (names cols : List String) (n : String) :
    n ∈ (selectIdxs names cols).map (fun i => cols.getD i "") ↔ n ∈ names ∧ n ∈ cols := by
  rw [selectIdxs, List.map_flatMap]
  constructor
  · intro h
    obtain ⟨a, ha, hn⟩ := List.mem_flatMap.mp h
    obtain ⟨rfl, hc⟩ := (mem_posOf_map cols a n).mp hn
    exact ⟨ha, hc⟩
  · rintro ⟨hn, hc⟩
    exact List.mem_flatMap.mpr ⟨n, hn, (mem_posOf_map cols n n).mpr ⟨rfl, hc⟩⟩

/-! ### Reconciliation lemmas -/

theorem reconcile_eq_error (expected : List String) (f : Frame)
    (h : selectMissing expected (f.cols.map pyStrip) ≠ []) :
    reconcile expected f = .error (selectMissing expected (f.cols.map pyStrip)) := by
  have hkeep : ∀ n ∈ (f.cols.map pyStrip).filter (fun c => decide (c ∈ expected)),
      n ∈ f.cols.map pyStrip := fun n hn => (List.mem_filter.mp hn).1
  have hsel1 : selectCols ⟨f.cols.map pyStrip, f.rows⟩
      ((f.cols.map pyStrip).filter (fun c => decide (c ∈ expected))) =
      .ok ⟨(selectIdxs ((f.cols.map pyStrip).filter (fun c => decide (c ∈ expected)))
              (f.cols.map pyStrip)).map (fun i => (f.cols.map pyStrip).getD i ""),
           f.rows.map (fun r =>
             (selectIdxs ((f.cols.map pyStrip).filter (fun c => decide (c ∈ expected)))
              (f.cols.map pyStrip)).map (fun i => r.getD i 0))⟩ := by
    rw [selectCols, if_pos (by rw [(selectMissing_eq_nil_iff _ _).mpr hkeep]; rfl)]
  have hmemiff : ∀ n ∈ expected,
      (n ∈ (selectIdxs ((f.cols.map pyStrip).filter (fun c => decide (c ∈ expected)))
          (f.cols.map pyStrip)).map (fun i => (f.cols.map pyStrip).getD i ""))
        ↔ n ∈ f.cols.map pyStrip := by
    intro n hn
    rw [mem_selectIdxs_map, List.mem_filter]
    constructor
    · rintro ⟨⟨hst, _⟩, _⟩; exact hst
    · intro hst; exact ⟨⟨hst, by simpa using hn⟩, hst⟩
  have hmiss : selectMissing expected
      ((selectIdxs ((f.cols.map pyStrip).filter (fun c => decide (c ∈ expected)))
          (f.cols.map pyStrip)).map (fun i => (f.cols.map pyStrip).getD i ""))
      = selectMissing expected (f.cols.map pyStrip) := by
    refine List.filter_congr (fun n hn => ?_)
    simp only [decide_eq_decide]
    exact not_congr (hmemiff n hn)
  have hsel2 : selectCols
      ⟨(selectIdxs ((f.cols.map pyStrip).filter (fun c => decide (c ∈ expected)))
          (f.cols.map pyStrip)).map (fun i => (f.cols.map pyStrip).getD i ""),
        f.rows.map (fun r =>
          (selectIdxs ((f.cols.map pyStrip).filter (fun c => decide (c ∈ expected)))
            (f.cols.map pyStrip)).map (fun i => r.getD i 0))⟩ expected
      = .error (selectMissing expected (f.cols.map pyStrip)) := by
    rw [selectCols]
    rw [if_neg (by rw [hmiss]; simpa [List.isEmpty_iff] using h)]
    rw [hmiss]
  simp only [reconcile]
  rw [hsel1]
  exact hsel2

theorem reconcile_eq_ok (expected : List String) (f : Frame)
    (h1 : ∀ e ∈ expected, e ∈ f.cols.map pyStrip)
    (h2 : ((f.cols.map pyStrip).filter (fun c => decide (c ∈ expected))).Nodup) :
    reconcile expected f = .ok ⟨expected,
      f.rows.map (fun r => expected.map (fun e =>
        r.getD ((f.cols.map pyStrip).indexOf e) 0))⟩ := by
  have hcnt1 : ∀ n ∈ (f.cols.map pyStrip).filter (fun c => decide (c ∈ expected)),
      (f.cols.map pyStrip).count n = 1 := by
    intro n hn
    have hinexp : n ∈ expected := by
      have := (List.mem_filter.mp hn).2
      simpa using this
    have hone : ((f.cols.map pyStrip).filter (fun c => decide (c ∈ expected))).count n = 1 :=
      List.count_eq_one_of_mem h2 hn
    rwa [List.count_filter (by simpa using hinexp)] at hone
  have hsel1 := selectCols_of_count_one ⟨f.cols.map pyStrip, f.rows⟩
    ((f.cols.map pyStrip).filter (fun c => decide (c ∈ expected))) hcnt1
  have hcnt2 : ∀ e ∈ expected,
      ((f.cols.map pyStrip).filter (fun c => decide (c ∈ expected))).count e = 1 := by
    intro e he
    refine List.count_eq_one_of_mem h2 ?_
    exact List.mem_filter.mpr ⟨h1 e he, by simpa using he⟩
  have hsel2 := selectCols_of_count_one
    ⟨(f.cols.map pyStrip).filter (fun c => decide (c ∈ expected)),
      f.rows.map (fun r =>
        ((f.cols.map pyStrip).filter (fun c => decide (c ∈ expected))).map
          (fun n => r.getD ((f.cols.map pyStrip).indexOf n) 0))⟩ expected hcnt2
  simp only [reconcile]
  rw [hsel1]
  refine hsel2.trans ?_
  simp only [List.map_map]
  refine congrArg (fun z => Except.ok (Frame.mk expected z)) ?_
  refine List.map_congr_left (fun r _ => ?_)
  simp only [Function.comp]
  refine List.map_congr_left (fun e he => ?_)
  exact getD_map_indexOf _ _ e
    (List.mem_filter.mpr ⟨h1 e he, by simpa using he⟩) 0

/-! ### Loop lemmas -/

theorem except_bind_ok {ε α β : Type} (a : α) (g : α → Except ε β) :
    (Except.ok a >>= g) = g a := rfl

theorem except_bind_error {ε α β : Type} (e : ε) (g : α → Except ε β) :
    ((Except.error e : Except ε α) >>= g) = Except.error e := rfl

theorem except_pure_bind {ε α β : Type} (a : α) (g : α → Except ε β) :
    ((pure a : Except ε α) >>= g) = g a := rfl

theorem except_mapError_ok {ε ε' α : Type} (g : ε → ε') (a : α) :
    (Except.ok a : Except ε α).mapError g = .ok a := rfl

theorem except_mapError_error {ε ε' α : Type} (g : ε → ε') (e : ε) :
    (Except.error e : Except ε α).mapError g = .error (g e) := rfl

theorem except_map_ok {ε α β : Type} (g : α → β) (a : α) :
    Except.map g (Except.ok a : Except ε α) = .ok (g a) := rfl

theorem except_map_error {ε α β : Type} (g : α → β) (e : ε) :
    Except.map g (Except.error e : Except ε α) = .error e := rfl

theorem processModels_nil (uid : String) (cols : List String) (row0 : List ℚ) :
    processModels uid cols row0 [] = .ok [] := rfl

theorem processModels_cons_predict_error (uid : String) (cols : List String)
    (row0 : List ℚ) (abx : String) (m : Model) (rest : List (String × Model))
    (c : String) (hm : m.predictRow row0 = .error c) :
    processModels uid cols row0 ((abx, m) :: rest) = .error (.modelError c) := by
  simp [processModels, hm, except_mapError_error, except_bind_error]

theorem processModels_cons_shap_error (uid : String) (cols : List String)
    (row0 : List ℚ) (abx : String) (m : Model) (rest : List (String × Model))
    (q : ℚ × ℚ) (c : String) (hp : m.predictRow row0 = .ok 1)
    (hq : m.probaRow row0 = .ok q) (hs : m.shapRow row0 = .error c) :
    processModels uid cols row0 ((abx, m) :: rest) = .error (.modelError c) := by
  simp [processModels, hp, hq, hs, except_mapError_error, except_mapError_ok,
    except_bind_error, except_bind_ok]

theorem processModels_append_error (uid : String) (cols : List String)
    (row0 : List ℚ) (l1 l2 : List (String × Model)) (acc : List ModelRow)
    (e : PipelineError) (h1 : processModels uid cols row0 l1 = .ok acc)
    (h2 : processModels uid cols row0 l2 = .error e) :
    processModels uid cols row0 (l1 ++ l2) = .error e := by
  induction l1 generalizing acc with
  | nil => simpa using h2
  | cons hd tl ih =>
    obtain ⟨abx, m⟩ := hd
    cases hp : m.predictRow row0 with
    | error c => rw [processModels_cons_predict_error uid cols row0 abx m _ c hp] at h1; cases h1
    | ok pred =>
      cases hq : m.probaRow row0 with
      | error c =>
        simp [processModels, hp, hq, except_mapError_error, except_mapError_ok,
          except_bind_error, except_bind_ok] at h1
      | ok q =>
        by_cases hres : pred = 1
        · cases hs : m.shapRow row0 with
          | error c =>
            rw [hres] at hp
            rw [processModels_cons_shap_error uid cols row0 abx m _ q c hp hq hs] at h1
            cases h1
          | ok sv =>
            cases hrest : processModels uid cols row0 tl with
            | error e2 =>
              simp [processModels, hp, hq, hres, hs, hrest, except_mapError_error,
                except_mapError_ok, except_bind_error, except_bind_ok] at h1
            | ok rs =>
              have hstep := ih rs hrest
              simp [processModels, hp, hq, hres, hs, hstep, except_mapError_ok,
                except_bind_ok, except_pure_bind, except_bind_error]
        · cases hrest : processModels uid cols row0 tl with
          | error e2 =>
            simp [processModels, hp, hq, hres, hrest, except_mapError_error,
              except_mapError_ok, except_bind_error, except_bind_ok] at h1
          | ok rs =>
            have hstep := ih rs hrest
            simp [processModels, hp, hq, hres, hstep, except_mapError_ok,
              except_bind_ok, except_pure_bind, except_bind_error]

theorem processModels_spec (uid : String) (cols : List String) (row0 : List ℚ)
    (ms : List (String × Model)) (rows : List ModelRow)
    (h : processModels uid cols row0 ms = .ok rows) :
    List.Forall₂ (rowSpec uid cols row0) ms rows := by
  induction ms generalizing rows with
  | nil =>
    rw [processModels_nil] at h
    cases h
    exact List.Forall₂.nil
  | cons hd tl ih =>
    obtain ⟨abx, m⟩ := hd
    cases hp : m.predictRow row0 with
    | error c => rw [processModels_cons_predict_error uid cols row0 abx m _ c hp] at h; cases h
    | ok pred =>
      cases hq : m.probaRow row0 with
      | error c =>
        simp [processModels, hp, hq, except_mapError_error, except_mapError_ok,
          except_bind_error, except_bind_ok] at h
      | ok q =>
        by_cases hres : pred = 1
        · cases hs : m.shapRow row0 with
          | error c =>
            rw [hres] at hp
            rw [processModels_cons_shap_error uid cols row0 abx m _ q c hp hq hs] at h
            cases h
          | ok sv =>
            cases hrest : processModels uid cols row0 tl with
            | error e2 =>
              simp [processModels, hp, hq, hres, hs, hrest, except_mapError_error,
                except_mapError_ok, except_bind_error, except_bind_ok, except_pure_bind] at h
            | ok rs =>
              simp only [processModels, hp, hq, hres, hs, hrest, except_mapError_ok,
                except_bind_ok, except_pure_bind, if_pos] at h
              cases h
              refine List.Forall₂.cons ?_ (ih rs hrest)
              exact ⟨rfl, by rw [hp, hres], ⟨q, hq, rfl⟩,
                Or.inr ⟨rfl, sv, hs, rfl⟩⟩
        · cases hrest : processModels uid cols row0 tl with
          | error e2 =>
            simp [processModels, hp, hq, hres, hrest, except_mapError_error,
              except_mapError_ok, except_bind_error, except_bind_ok, except_pure_bind] at h
          | ok rs =>
            simp only [processModels, hp, hq, hres, hrest, except_mapError_ok,
              except_bind_ok, except_pure_bind, if_neg] at h
            cases h
            refine List.Forall₂.cons ?_ (ih rs hrest)
            exact ⟨rfl, by rw [hp], ⟨q, hq, rfl⟩, Or.inl ⟨hres, rfl⟩⟩

theorem forall₂_exists_left {α β : Type} {R : α → β → Prop} {l1 : List α}
    {l2 : List β} (h : List.Forall₂ R l1 l2) (b : β) (hb : b ∈ l2) :
    ∃ a ∈ l1, R a b := by
  induction h with
  | nil => cases hb
  | cons hr _ ih =>
    rcases List.mem_cons.mp hb with rfl | hm
    · exact ⟨_, List.mem_cons_self .., hr⟩
    · obtain ⟨a, ha, har⟩ := ih hm
      exact ⟨a, List.mem_cons_of_mem _ ha, har⟩

theorem forall₂_map_fst {uid : String} {cols : List String} {row0 : List ℚ}
    {ms : List (String × Model)} {rows : List ModelRow}
    (h : List.Forall₂ (rowSpec uid cols row0) ms rows) :
    rows.map (fun r => r.abx) = ms.map Prod.fst := by
  induction h with
  | nil => rfl
  | cons hr _ ih => simp [ih, hr.1]

theorem processModels_rowData (uid uid' : String) (cols : List String)
    (row0 : List ℚ) (ms : List (String × Model)) :
    (processModels uid cols row0 ms).map (List.map rowData) =
    (processModels uid' cols row0 ms).map (List.map rowData) := by
  induction ms with
  | nil => rfl
  | cons hd tl ih =>
    obtain ⟨abx, m⟩ := hd
    cases hp : m.predictRow row0 with
    | error c =>
      rw [processModels_cons_predict_error uid cols row0 abx m _ c hp,
        processModels_cons_predict_error uid' cols row0 abx m _ c hp]
    | ok pred =>
      cases hq : m.probaRow row0 with
      | error c =>
        simp [processModels, hp, hq, except_mapError_error, except_mapError_ok,
          except_bind_error, except_bind_ok]
      | ok q =>
        by_cases hres : pred = 1
        · cases hs : m.shapRow row0 with
          | error c =>
            rw [hres] at hp
            rw [processModels_cons_shap_error uid cols row0 abx m _ q c hp hq hs,
              processModels_cons_shap_error uid' cols row0 abx m _ q c hp hq hs]
          | ok sv =>
            cases hrest : processModels uid cols row0 tl with
            | error e2 =>
              have h2 : processModels uid' cols row0 tl = .error e2 := by
                have := ih
                rw [hrest] at this
                cases h3 : processModels uid' cols row0 tl with
                | error e3 => rw [h3] at this; cases this; rfl
                | ok rs3 => rw [h3] at this; cases this
              simp [processModels, hp, hq, hres, hs, hrest, h2, except_mapError_error,
                except_mapError_ok, except_bind_error, except_bind_ok, except_pure_bind]
            | ok rs =>
              cases h3 : processModels uid' cols row0 tl with
              | error e3 =>
                have := ih
                rw [hrest, h3] at this
                cases this
              | ok rs3 =>
                have hmapeq : rs.map rowData = rs3.map rowData := by
                  have := ih
                  rw [hrest, h3] at this
                  simpa [except_map_ok] using this
                simp [processModels, hp, hq, hres, hs, hrest, h3, except_mapError_ok,
                  except_bind_ok, except_pure_bind, except_map_ok, rowData, hmapeq]
        · cases hrest : processModels uid cols row0 tl with
          | error e2 =>
            have h2 : processModels uid' cols row0 tl = .error e2 := by
              have := ih
              rw [hrest] at this
              cases h3 : processModels uid' cols row0 tl with
              | error e3 => rw [h3] at this; cases this; rfl
              | ok rs3 => rw [h3] at this; cases this
            simp [processModels, hp, hq, hres, hrest, h2, except_mapError_error,
              except_mapError_ok, except_bind_error, except_bind_ok, except_pure_bind]
          | ok rs =>
            cases h3 : processModels uid' cols row0 tl with
            | error e3 =>
              have := ih
              rw [hrest, h3] at this
              cases this
            | ok rs3 =>
              have hmapeq : rs.map rowData = rs3.map rowData := by
                have := ih
                rw [hrest, h3] at this
                simpa [except_map_ok] using this
              simp [processModels, hp, hq, hres, hrest, h3, except_mapError_ok,
                except_bind_ok, except_pure_bind, except_map_ok, rowData, hmapeq]

/-! ### Handler-level lemmas -/

theorem mkOutput_rows (uid : String) (rows : List ModelRow) :
    (mkOutput uid rows).rows = rows := rfl

theorem mkOutput_csv_rows (uid : String) (rows : List ModelRow) :
    (mkOutput uid rows).csv_rows = rows.map csvRowFor := rfl

theorem mkOutput_tips (uid : String) (rows : List ModelRow) :
    (mkOutput uid rows).tips = tipsFor rows := rfl

theorem mkOutput_explanations (uid : String) (rows : List ModelRow) :
    (mkOutput uid rows).explanations = rows.filterMap (fun r => r.expl) := rfl

theorem mkOutput_csv_file (uid : String) (rows : List ModelRow) :
    (mkOutput uid rows).csv_file = "static/report_" ++ uid ++ ".csv" := rfl

theorem mkOutput_pdf_path (uid : String) (rows : List ModelRow) :
    (mkOutput uid rows).pdf_path = "static/report_" ++ uid ++ ".pdf" := rfl

theorem mkOutput_pdf_lines (uid : String) (rows : List ModelRow) :
    (mkOutput uid rows).pdf_lines =
      "UTI Antimicrobial Resistance Report" :: (rows.map csvRowFor).map pdfLineFor := rfl

theorem mkOutput_pill_html (uid : String) (rows : List ModelRow) :
    (mkOutput uid rows).pill_html =
      String.join (rows.map (fun r => pillFor r.abx r.pred r.prob)) := rfl

theorem upload_csv_reconcile_error (models : List (String × Model))
    (expected : List String) (uuid4 : String) (f : Frame) (e : List String)
    (h : reconcile expected f = .error e) :
    upload_csv models expected uuid4 f = .error (.keyError e) := by
  simp [upload_csv, h, except_mapError_error, except_bind_error]

theorem upload_csv_run (models : List (String × Model)) (expected : List String)
    (uuid4 : String) (f : Frame) (df : Frame) (row0 : List ℚ)
    (hrec : reconcile expected f = .ok df) (hhead : df.rows.head? = some row0)
    (hne : models ≠ []) :
    upload_csv models expected uuid4 f =
      (processModels (pySlice8 uuid4) df.cols row0 models).map
        (fun rows => mkOutput (pySlice8 uuid4) rows) := by
  cases models with
  | nil => cases hne rfl
  | cons hd tl =>
    simp only [upload_csv, hrec, except_mapError_ok, except_bind_ok, hhead]
    cases hpm : processModels (pySlice8 uuid4) df.cols row0 (hd :: tl) <;>
      simp [hpm, except_map_ok, except_map_error, except_bind_ok, except_bind_error,
        except_pure_bind]

theorem upload_csv_empty_models (expected : List String) (uuid4 : String)
    (f : Frame) (df : Frame) (hrec : reconcile expected f = .ok df) :
    upload_csv [] expected uuid4 f = .ok (mkOutput (pySlice8 uuid4) []) := by
  simp only [upload_csv, hrec, except_mapError_ok, except_bind_ok]
  cases df.rows.head? <;> rfl

theorem upload_csv_ok_forall₂ (models : List (String × Model))
    (expected : List String) (uuid4 : String) (f : Frame) (out : Output)
    (h : upload_csv models expected uuid4 f = .ok out) :
    ∃ cols row0 rows, out = mkOutput (pySlice8 uuid4) rows ∧
      List.Forall₂ (rowSpec (pySlice8 uuid4) cols row0) models rows := by
  cases hrec : reconcile expected f with
  | error e => rw [upload_csv_reconcile_error models expected uuid4 f e hrec] at h; cases h
  | ok df =>
    cases models with
    | nil =>
      rw [upload_csv_empty_models expected uuid4 f df hrec] at h
      cases h
      exact ⟨[], [], [], rfl, List.Forall₂.nil⟩
    | cons hd tl =>
      cases hhead : df.rows.head? with
      | none =>
        simp only [upload_csv, hrec, except_mapError_ok, except_bind_ok, hhead] at h
        simp [throw, throwThe, MonadExceptOf.throw, Functor.map, except_map_error] at h
      | some row0 =>
        rw [upload_csv_run (hd :: tl) expected uuid4 f df row0 hrec hhead
          (by simp)] at h
        cases hpm : processModels (pySlice8 uuid4) df.cols row0 (hd :: tl) with
        | error e => rw [hpm, except_map_error] at h; cases h
        | ok rows =>
          rw [hpm, except_map_ok] at h
          cases h
          exact ⟨df.cols, row0, rows, rfl,
            processModels_spec (pySlice8 uuid4) df.cols row0 (hd :: tl) rows hpm⟩

/-! ### Summary-string lemmas -/

theorem string_ne_of_head (s t : String) (h : s.data.head? ≠ t.data.head?) :
    s ≠ t := fun he => h (he ▸ rfl)

theorem ul_head (s t : String) : (("<ul>" ++ s) ++ t).data.head? = some '<' := by
  rw [String.data_append, String.data_append]
  rfl

theorem tipsFor_eq_noRes_iff (rows : List ModelRow) :
    tipsFor rows = noResistanceMsg ↔ ∀ r ∈ rows, r.pred = 0 := by
  unfold tipsFor
  by_cases h : (rows.any (fun r => r.pred ≠ 0)) = true
  · rw [if_pos h]
    constructor
    · intro he
      exact absurd he (string_ne_of_head _ _ (by rw [ul_head]; decide))
    · intro hall
      obtain ⟨r, hr, hne⟩ := List.any_eq_true.mp h
      exact absurd (hall r hr) (by simpa using hne)
  · rw [if_neg h]
    constructor
    · intro _ r hr
      by_contra hne
      exact h (List.any_eq_true.mpr ⟨r, hr, by simpa using hne⟩)
    · intro _
      rfl

/-! ### Report-content lemmas -/

theorem except_map_map {ε α β γ : Type} (g : β → γ) (h : α → β) (x : Except ε α) :
    Except.map g (Except.map h x) = Except.map (fun a => g (h a)) x := by
  cases x <;> rfl

theorem map_csvRowFor (rows : List ModelRow) :
    rows.map csvRowFor = (rows.map rowData).map csvOfData := by
  rw [List.map_map]
  rfl

theorem any_map_rowData (rows : List ModelRow) :
    ((rows.map rowData).any fun t => decide (t.2.1 ≠ 0)) = rows.any fun r => decide (r.pred ≠ 0) := by
  induction rows with
  | nil => rfl
  | cons r t ih =>
    simp only [List.map_cons, List.any_cons, ih]
    rfl

theorem tipsFor_factor (rows : List ModelRow) :
    tipsFor rows = tipsOfData (rows.map rowData) := by
  unfold tipsFor tipsOfData
  simp only [List.filter_map, List.map_map, any_map_rowData]
  rfl

theorem mkOutput_textReport (uid : String) (rows : List ModelRow) :
    ((mkOutput uid rows).pdf_lines, (mkOutput uid rows).csv_rows, (mkOutput uid rows).tips)
      = textReport (rows.map rowData) := by
  rw [mkOutput_pdf_lines, mkOutput_csv_rows, mkOutput_tips, textReport,
    map_csvRowFor, tipsFor_factor]

theorem upload_csv_index_error (hd : String × Model) (tl : List (String × Model))
    (expected : List String) (uuid4 : String) (f : Frame) (df : Frame)
    (hrec : reconcile expected f = .ok df) (hhead : df.rows.head? = none) :
    upload_csv (hd :: tl) expected uuid4 f
      = .error (.modelError "index 0 is out of bounds for axis 0 with size 0") := by
  simp [upload_csv, hrec, except_mapError_ok, except_bind_ok, hhead, throw,
    throwThe, MonadExceptOf.throw, except_bind_error]

theorem half_lt_iff (q : ℚ) : 1 / 2 < q ↔ (q.den : ℤ) < 2 * q.num := by
  conv_lhs => rw [← Rat.num_div_den q]
  rw [div_lt_div_iff₀ (by norm_num) (by exact_mod_cast q.pos), one_mul, mul_comm]
  constructor
  · intro h
    exact_mod_cast h
  · intro h
    exact_mod_cast h

/-! ### Claim C1 -/

/-- C1: for every raw row whose stripped column names lack at least one
schema feature, `upload_csv` fails with the `KeyError` listing exactly the
missing feature names (membership in the reported list is equivalent to
being a schema feature absent from the stripped columns — a set-level
characterisation, independent of order), and no model inference is
attempted: the result is the same error for every registry and every
uuid draw. -/
theorem c1_missing_features_error (expected : List String) (f : Frame)
    (h : missingFeatures expected f ≠ []) :
    ∀ (models models' : List (String × Model)) (uuid4 uuid4' : String),
      upload_csv models expected uuid4 f
          = .error (.keyError (missingFeatures expected f)) ∧
      upload_csv models expected uuid4 f = upload_csv models' expected uuid4' f ∧
      (∀ e, e ∈ missingFeatures expected f ↔
        (e ∈ expected ∧ e ∉ f.cols.map pyStrip)) := by
  intro models models' uuid4 uuid4'
  have herr : reconcile expected f = .error (missingFeatures expected f) :=
    reconcile_eq_error expected f h
  refine ⟨upload_csv_reconcile_error models expected uuid4 f _ herr, ?_, ?_⟩
  · rw [upload_csv_reconcile_error models expected uuid4 f _ herr,
      upload_csv_reconcile_error models' expected uuid4' f _ herr]
  · intro e
    simp [missingFeatures, selectMissing, List.mem_filter]

/-- C1 witness: schema `[age, bc]`, raw columns `[age, x]`: the request
fails with `KeyError(["bc"])` whatever the registry. -/
theorem c1_missing_features_error_witness :
    (upload_csv [("Amoxicillin", mSens)] ["age", "bc"] "u" ⟨["age", "x"], [[1, 2]]⟩
        = .error (.keyError ["bc"])) ∧
    (upload_csv [("Amoxicillin", mSens)] ["age", "bc"] "u" ⟨["age", "x"], [[1, 2]]⟩
        = upload_csv [] ["age", "bc"] "v" ⟨["age", "x"], [[1, 2]]⟩) ∧
    (∀ e, e ∈ missingFeatures ["age", "bc"] ⟨["age", "x"], [[1, 2]]⟩ ↔
      (e ∈ (["age", "bc"] : List String) ∧
        e ∉ (["age", "x"] : List String).map pyStrip)) := by
  obtain ⟨h1, h2, h3⟩ := c1_missing_features_error ["age", "bc"]
    ⟨["age", "x"], [[1, 2]]⟩ (by decide) [("Amoxicillin", mSens)] [] "u" "v"
  exact ⟨h1.trans (by decide), h2, h3⟩

/-! ### Claim C2 -/

/-- C2 (amended): the reported probability is the class-1 mass returned by
`predict_proba` and the verdict comes from the separate `predict` call, both
on the same first reconciled row; hence when every classifier's two
capabilities are mutually consistent (`predict = 1` iff its class-1
probability exceeds 1/2) and its probabilities lie in [0, 1], every reported
probability lies in [0, 1] and the verdict is Resistant exactly when the
probability exceeds 1/2, with verdict and probability paired in the same
output row.  The pipeline itself enforces no such consistency: `predict`
and `predict_proba` are two independent calls (see the counterexample). -/
theorem c2_verdict_probability (models : List (String × Model))
    (expected : List String) (uuid4 : String) (f : Frame) (out : Output)
    (hrun : upload_csv models expected uuid4 f = .ok out)
    (hcons : ∀ p ∈ models, ∀ (r : List ℚ) (pr : ℤ) (q : ℚ × ℚ),
      p.2.predictRow r = .ok pr → p.2.probaRow r = .ok q → (pr = 1 ↔ 1 / 2 < q.2))
    (hbound : ∀ p ∈ models, ∀ (r : List ℚ) (q : ℚ × ℚ),
      p.2.probaRow r = .ok q → 0 ≤ q.2 ∧ q.2 ≤ 1) :
    (∀ row ∈ out.rows, (0 ≤ row.prob ∧ row.prob ≤ 1) ∧
      (row.pred = 1 ↔ 1 / 2 < row.prob)) ∧
    out.csv_rows = out.rows.map csvRowFor := by
  obtain ⟨cols, row0, rows, rfl, hfa⟩ :=
    upload_csv_ok_forall₂ models expected uuid4 f out hrun
  refine ⟨?_, mkOutput_csv_rows _ _⟩
  intro row hrow
  rw [mkOutput_rows] at hrow
  obtain ⟨p, hp, hspec⟩ := forall₂_exists_left hfa row hrow
  obtain ⟨-, hpred, ⟨q, hq, hprob⟩, -⟩ := hspec
  refine ⟨?_, ?_⟩
  · rw [hprob]
    exact hbound p hp row0 q hq
  · rw [hprob]
    exact hcons p hp row0 row.pred q hpred hq

theorem except_toOption_some {ε α : Type} (x : Except ε α) (a : α) :
    x.toOption = some a ↔ x = .ok a := by
  cases x <;> simp [Except.toOption]

/-- C2 witness: a consistent resistant classifier (`predict = 1`,
`predict_proba = (0.2, 0.8)`): the output row has probability 0.8 ∈ [0, 1]
and verdict Resistant agreeing with the 1/2 rule. -/
theorem c2_verdict_probability_witness :
    ∃ out, upload_csv [("Ciprofloxacin", mRes)] ["f"] "u" ⟨["f"], [[1]]⟩ = .ok out ∧
      (∀ row ∈ out.rows, (0 ≤ row.prob ∧ row.prob ≤ 1) ∧
        (row.pred = 1 ↔ 1 / 2 < row.prob)) ∧
      out.csv_rows = out.rows.map csvRowFor := by
  have hok : (upload_csv [("Ciprofloxacin", mRes)] ["f"] "u"
      ⟨["f"], [[1]]⟩).toOption.isSome = true := by decide
  obtain ⟨out, hout⟩ := Option.isSome_iff_exists.mp hok
  rw [except_toOption_some] at hout
  refine ⟨out, hout, ?_⟩
  refine c2_verdict_probability [("Ciprofloxacin", mRes)] ["f"] "u"
    ⟨["f"], [[1]]⟩ out hout ?_ ?_
  · rintro p hp r pr q hpr hq
    rcases List.mem_singleton.mp hp with rfl
    cases hpr
    cases hq
    rw [half_lt_iff]
    simp [mRes]
    decide
  · rintro p hp r q hq
    rcases List.mem_singleton.mp hp with rfl
    cases hq
    decide

/-- C2 counterexample: a classifier whose independent `predict` and
`predict_proba` calls disagree (as two draws of a stochastic model may)
makes the pipeline render verdict Sensitive with probability 97.00% — the
exact output the claim says is excluded — so verdict and probability are
not taken from one atomic inference pass. -/
theorem c2_counter_disagreement :
    (upload_csv [("Ciprofloxacin", mIncons)] ["f"] "u" ⟨["f"], [[1]]⟩).map
        (fun o => o.csv_rows) = .ok [("Ciprofloxacin", "Sensitive", "97.00%")] ∧
    mIncons.predictRow [1] = .ok 0 ∧ mIncons.probaRow [1] = .ok (q03, q97) ∧
    1 / 2 < q97 := by
  refine ⟨by decide, rfl, rfl, ?_⟩
  rw [half_lt_iff]
  decide

/-! ### Claim C3 -/

/-- C3 (amended): when the SHAP attribution computation raises for a
resistant label, the `except` clause aborts the whole request: the handler
returns the 500 error carrying the exception text, no report is rendered,
and the predictions already computed (and any later models) are discarded,
whatever follows in the registry. -/
theorem c3_explanation_failure_aborts (pre post : List (String × Model))
    (abx : String) (m : Model) (expected : List String) (uuid4 : String)
    (f : Frame) (df : Frame) (row0 : List ℚ) (acc : List ModelRow)
    (q : ℚ × ℚ) (c : String)
    (hrec : reconcile expected f = .ok df) (hhead : df.rows.head? = some row0)
    (hpre : processModels (pySlice8 uuid4) df.cols row0 pre = .ok acc)
    (hp : m.predictRow row0 = .ok 1) (hq : m.probaRow row0 = .ok q)
    (hs : m.shapRow row0 = .error c) :
    upload_csv (pre ++ (abx, m) :: post) expected uuid4 f
      = .error (.modelError c) := by
  have hstep := processModels_cons_shap_error (pySlice8 uuid4) df.cols row0
    abx m post q c hp hq hs
  have hall := processModels_append_error (pySlice8 uuid4) df.cols row0 pre
    ((abx, m) :: post) acc _ hpre hstep
  rw [upload_csv_run (pre ++ (abx, m) :: post) expected uuid4 f df row0 hrec
    hhead (by simp), hall, except_map_error]

/-- C3 witness: a successful sensitive model, then a resistant model whose
SHAP computation raises, then another model: the whole request errors. -/
theorem c3_explanation_failure_aborts_witness :
    upload_csv [("Nitrofurantoin", mSens), ("Amoxicillin", mShapFail), ("Cefepime", mRes)]
        ["f"] "u" ⟨["f"], [[1]]⟩
      = .error (.modelError "shap explainer failed") := by
  refine c3_explanation_failure_aborts [("Nitrofurantoin", mSens)] [("Cefepime", mRes)]
    "Amoxicillin" mShapFail ["f"] "u" ⟨["f"], [[1]]⟩ ⟨["f"], [[1]]⟩ [1]
    [⟨"Nitrofurantoin", 0, q03, none⟩] (q20, q80) "shap explainer failed"
    (by decide) rfl (by decide) rfl rfl rfl

/-- C3 counterexample: attribution fails for the resistant label
Amoxicillin, yet nothing of the report survives — the other label's
verdict and probability are not rendered, and no `Output` exists; the
claim's promised degradation to an empty attribution list does not occur. -/
theorem c3_counter_whole_request_fails :
    upload_csv [("Amoxicillin", mShapFail), ("Cefepime", mSens)] ["f"] "u"
        ⟨["f"], [[1]]⟩
      = .error (.modelError "shap explainer failed") := by
  decide

/-! ### Claim C4 -/

/-- C4 (amended): when any classifier raises during prediction, the whole
panel fails: the handler returns the 500 error carrying the exception text
(`str(e)`), and no partial list of predictions is returned, whatever
follows in the registry.  The error does not carry the offending label
(see counterexample). -/
theorem c4_inference_failure_fails_panel (pre post : List (String × Model))
    (abx : String) (m : Model) (expected : List String) (uuid4 : String)
    (f : Frame) (df : Frame) (row0 : List ℚ) (acc : List ModelRow) (c : String)
    (hrec : reconcile expected f = .ok df) (hhead : df.rows.head? = some row0)
    (hpre : processModels (pySlice8 uuid4) df.cols row0 pre = .ok acc)
    (hm : m.predictRow row0 = .error c) :
    upload_csv (pre ++ (abx, m) :: post) expected uuid4 f
      = .error (.modelError c) := by
  have hstep := processModels_cons_predict_error (pySlice8 uuid4) df.cols row0
    abx m post c hm
  have hall := processModels_append_error (pySlice8 uuid4) df.cols row0 pre
    ((abx, m) :: post) acc _ hpre hstep
  rw [upload_csv_run (pre ++ (abx, m) :: post) expected uuid4 f df row0 hrec
    hhead (by simp), hall, except_map_error]

/-- C4 witness: a succeeding model, then a model whose `predict` raises,
then another model: the whole panel fails with the exception text. -/
theorem c4_inference_failure_fails_panel_witness :
    upload_csv [("Nitrofurantoin", mSens), ("Ciprofloxacin", mPredFail), ("Cefepime", mSens)]
        ["f"] "u" ⟨["f"], [[1]]⟩
      = .error (.modelError "division by zero") := by
  refine c4_inference_failure_fails_panel [("Nitrofurantoin", mSens)] [("Cefepime", mSens)]
    "Ciprofloxacin" mPredFail ["f"] "u" ⟨["f"], [[1]]⟩ ⟨["f"], [[1]]⟩ [1]
    [⟨"Nitrofurantoin", 0, q03, none⟩] "division by zero"
    (by decide) rfl (by decide) rfl

/-- C4 counterexample: two registries that differ only in the label of the
failing classifier produce the identical error value, so the returned
error (`str(e)` alone) cannot carry the offending label, contrary to the
claimed `InferenceFailure(label, cause)` shape. -/
theorem c4_counter_label_not_carried :
    upload_csv [("Ciprofloxacin", mPredFail)] ["f"] "u" ⟨["f"], [[1]]⟩
        = .error (.modelError "division by zero") ∧
    upload_csv [("Nitrofurantoin", mPredFail)] ["f"] "u" ⟨["f"], [[1]]⟩
        = .error (.modelError "division by zero") := by
  exact ⟨by decide, by decide⟩

/-! ### Claim C5 -/

theorem upload_proj_factor (uid : String) (x : Except PipelineError (List ModelRow)) :
    (x.map (fun rows => mkOutput uid rows)).map
        (fun o => (o.pdf_lines, o.csv_rows, o.tips))
      = (x.map (List.map rowData)).map textReport := by
  cases x with
  | error e => rfl
  | ok rows =>
    rw [except_map_ok, except_map_ok, except_map_ok, except_map_ok]
    exact congrArg Except.ok (mkOutput_textReport uid rows)

/-- C5 (amended): with the registry and raw input fixed, the textual report
content — the PDF body lines, the CSV rows and the clinical tips — is
identical across runs whatever `uuid.uuid4()` draw occurs (and contains no
timestamp or random identifier, being a function of the model data alone);
but the artifact file names embed the first eight characters of the UUID
drawn inside the handler at line 151, so they are chosen by the handler's
internal random draw, not supplied by the caller. -/
theorem c5_reproducible_body_internal_uid (models : List (String × Model))
    (expected : List String) (f : Frame) (uuid4 uuid4' : String) :
    ((upload_csv models expected uuid4 f).map
        (fun o => (o.pdf_lines, o.csv_rows, o.tips))
      = (upload_csv models expected uuid4' f).map
        (fun o => (o.pdf_lines, o.csv_rows, o.tips))) ∧
    (∀ out, upload_csv models expected uuid4 f = .ok out →
      out.pdf_path = "static/report_" ++ pySlice8 uuid4 ++ ".pdf" ∧
      out.csv_file = "static/report_" ++ pySlice8 uuid4 ++ ".csv") := by
  constructor
  · cases hrec : reconcile expected f with
    | error e =>
      rw [upload_csv_reconcile_error models expected uuid4 f e hrec,
        upload_csv_reconcile_error models expected uuid4' f e hrec]
    | ok df =>
      cases models with
      | nil =>
        rw [upload_csv_empty_models expected uuid4 f df hrec,
          upload_csv_empty_models expected uuid4' f df hrec,
          except_map_ok, except_map_ok, mkOutput_textReport, mkOutput_textReport]
      | cons hd tl =>
        cases hhead : df.rows.head? with
        | none =>
          rw [upload_csv_index_error hd tl expected uuid4 f df hrec hhead,
            upload_csv_index_error hd tl expected uuid4' f df hrec hhead]
        | some row0 =>
          rw [upload_csv_run (hd :: tl) expected uuid4 f df row0 hrec hhead (by simp),
            upload_csv_run (hd :: tl) expected uuid4' f df row0 hrec hhead (by simp),
            upload_proj_factor, upload_proj_factor,
            processModels_rowData (pySlice8 uuid4) (pySlice8 uuid4') df.cols row0 (hd :: tl)]
  · intro out hout
    obtain ⟨cols, row0, rows, rfl, -⟩ :=
      upload_csv_ok_forall₂ models expected uuid4 f out hout
    exact ⟨mkOutput_pdf_path _ _, mkOutput_csv_file _ _⟩

/-- C5 witness: two runs of the same registry on the same frame with
different uuid draws produce the same report text, and the artifact paths
embed the internal draw. -/
theorem c5_reproducible_body_internal_uid_witness :
    ((upload_csv [("Amoxicillin", mSens)] ["f"] "aaaaaaaa-0000" ⟨["f"], [[1]]⟩).map
        (fun o => (o.pdf_lines, o.csv_rows, o.tips))
      = (upload_csv [("Amoxicillin", mSens)] ["f"] "bbbbbbbb-1111" ⟨["f"], [[1]]⟩).map
        (fun o => (o.pdf_lines, o.csv_rows, o.tips))) ∧
    (∃ out, upload_csv [("Amoxicillin", mSens)] ["f"] "aaaaaaaa-0000" ⟨["f"], [[1]]⟩
        = .ok out ∧
      out.pdf_path = "static/report_" ++ pySlice8 "aaaaaaaa-0000" ++ ".pdf" ∧
      out.csv_file = "static/report_" ++ pySlice8 "aaaaaaaa-0000" ++ ".csv") := by
  obtain ⟨h1, h2⟩ := c5_reproducible_body_internal_uid [("Amoxicillin", mSens)]
    ["f"] ⟨["f"], [[1]]⟩ "aaaaaaaa-0000" "bbbbbbbb-1111"
  refine ⟨h1, ?_⟩
  have hok : (upload_csv [("Amoxicillin", mSens)] ["f"] "aaaaaaaa-0000"
      ⟨["f"], [[1]]⟩).toOption.isSome = true := by decide
  obtain ⟨out, hout⟩ := Option.isSome_iff_exists.mp hok
  rw [except_toOption_some] at hout
  exact ⟨out, hout, h2 out hout⟩

/-- C5 counterexample: two runs with identical raw input and registry but
different ambient uuid draws produce different PDF artifact names — the
external identifier is generated inside the handler (line 151), not
supplied by the caller, so the run-to-run output is not identical as
claimed. -/
theorem c5_counter_filename_from_internal_uuid :
    (upload_csv [("Amoxicillin", mSens)] ["f"] "aaaaaaaa-0000" ⟨["f"], [[1]]⟩).map
        (fun o => o.pdf_path) = .ok "static/report_aaaaaaaa.pdf" ∧
    (upload_csv [("Amoxicillin", mSens)] ["f"] "bbbbbbbb-1111" ⟨["f"], [[1]]⟩).map
        (fun o => o.pdf_path) = .ok "static/report_bbbbbbbb.pdf" ∧
    ("static/report_aaaaaaaa.pdf" : String) ≠ "static/report_bbbbbbbb.pdf" := by
  exact ⟨by decide, by decide, by decide⟩

/-! ### Claim C9 -/

theorem selectCols_cases (f g : Frame) (names : List String) (hc : f.cols = g.cols)
    (hr : f.rows.head? = g.rows.head?) :
    (∃ e, selectCols f names = .error e ∧ selectCols g names = .error e) ∨
    (∃ df dg, selectCols f names = .ok df ∧ selectCols g names = .ok dg ∧
      df.cols = dg.cols ∧ df.rows.head? = dg.rows.head?) := by
  rw [selectCols, selectCols, hc]
  by_cases h : (selectMissing names g.cols).isEmpty
  · rw [if_pos h, if_pos h]
    refine Or.inr ⟨_, _, rfl, rfl, rfl, ?_⟩
    simp only [List.head?_map, hr]
  · rw [if_neg h, if_neg h]
    exact Or.inl ⟨_, rfl, rfl⟩

theorem reconcile_cases (expected : List String) (f g : Frame)
    (hc : f.cols = g.cols) (hr : f.rows.head? = g.rows.head?) :
    (∃ e, reconcile expected f = .error e ∧ reconcile expected g = .error e) ∨
    (∃ df dg, reconcile expected f = .ok df ∧ reconcile expected g = .ok dg ∧
      df.cols = dg.cols ∧ df.rows.head? = dg.rows.head?) := by
  have hkeepeq : (f.cols.map pyStrip).filter (fun c => decide (c ∈ expected))
      = (g.cols.map pyStrip).filter (fun c => decide (c ∈ expected)) := by rw [hc]
  have h1 := selectCols_cases ⟨f.cols.map pyStrip, f.rows⟩ ⟨g.cols.map pyStrip, g.rows⟩
    ((f.cols.map pyStrip).filter (fun c => decide (c ∈ expected)))
    (by simp only; rw [hc]) hr
  rcases h1 with ⟨e, hf, hg⟩ | ⟨df2, dg2, hf, hg, hdc, hdr⟩
  · refine Or.inl ⟨e, ?_, ?_⟩
    · simp only [reconcile]
      rw [hf]
      rfl
    · simp only [reconcile]
      rw [← hkeepeq, hg]
      rfl
  · rcases selectCols_cases df2 dg2 expected hdc hdr with
      ⟨e, hf2, hg2⟩ | ⟨df3, dg3, hf2, hg2, hdc3, hdr3⟩
    · refine Or.inl ⟨e, ?_, ?_⟩
      · simp only [reconcile]
        rw [hf]
        exact hf2
      · simp only [reconcile]
        rw [← hkeepeq, hg]
        exact hg2
    · refine Or.inr ⟨df3, dg3, ?_, ?_, hdc3, hdr3⟩
      · simp only [reconcile]
        rw [hf]
        exact hf2
      · simp only [reconcile]
        rw [← hkeepeq, hg]
        exact hg2

/-- C9: the whole response is a function of the column header and the first
data row alone: two uploads with the same columns and the same first row
(one may have any number of additional rows) produce identical results —
every subsequent row is silently ignored, having no effect on any output. -/
theorem c9_only_first_row (models : List (String × Model)) (expected : List String)
    (uuid4 : String) (f g : Frame) (hc : f.cols = g.cols)
    (hr : f.rows.head? = g.rows.head?) :
    upload_csv models expected uuid4 f = upload_csv models expected uuid4 g := by
  rcases reconcile_cases expected f g hc hr with
    ⟨e, hf, hg⟩ | ⟨df, dg, hf, hg, hdc, hdr⟩
  · rw [upload_csv_reconcile_error models expected uuid4 f e hf,
      upload_csv_reconcile_error models expected uuid4 g e hg]
  · cases models with
    | nil =>
      rw [upload_csv_empty_models expected uuid4 f df hf,
        upload_csv_empty_models expected uuid4 g dg hg]
    | cons hd tl =>
      cases hh : df.rows.head? with
      | none =>
        rw [upload_csv_index_error hd tl expected uuid4 f df hf hh,
          upload_csv_index_error hd tl expected uuid4 g dg hg (hdr ▸ hh)]
      | some row0 =>
        rw [upload_csv_run (hd :: tl) expected uuid4 f df row0 hf hh (by simp),
          upload_csv_run (hd :: tl) expected uuid4 g dg row0 hg (hdr ▸ hh) (by simp),
          hdc]

/-- C9 witness: a two-row upload and its one-row truncation produce the
identical response. -/
theorem c9_only_first_row_witness :
    upload_csv [("Amoxicillin", mRes)] ["f"] "u" ⟨["f"], [[1], [5]]⟩
      = upload_csv [("Amoxicillin", mRes)] ["f"] "u" ⟨["f"], [[1]]⟩ := by
  exact c9_only_first_row [("Amoxicillin", mRes)] ["f"] "u"
    ⟨["f"], [[1], [5]]⟩ ⟨["f"], [[1]]⟩ rfl rfl

/-! ### Claim C8 -/

/-- C8: the rendered rows appear in registry order (the label sequence of
the output equals the registry's label sequence); for binary verdicts the
CSV verdict is Resistant exactly when `pred = 1`; the clinical-suggestion
summary is the fixed no-resistance message exactly when no label is
resistant, and otherwise is the `<ul>` listing exactly the resistant
labels, in that registry order. -/
theorem c8_summary (models : List (String × Model)) (expected : List String)
    (uuid4 : String) (f : Frame) (out : Output)
    (hrun : upload_csv models expected uuid4 f = .ok out)
    (hbin : ∀ r ∈ out.rows, r.pred = 0 ∨ r.pred = 1) :
    (out.rows.map (fun r => r.abx) = models.map Prod.fst) ∧
    (∀ r ∈ out.rows, ((csvRowFor r).2.1 = "Resistant" ↔ r.pred = 1)) ∧
    (out.tips = noResistanceMsg ↔ ∀ r ∈ out.rows, r.pred = 0) ∧
    ((∃ r ∈ out.rows, r.pred = 1) →
      out.tips = "<ul>" ++ String.join ((out.rows.filter (fun r => r.pred = 1)).map
        (fun r => "<li>Avoid prescribing <b>" ++ r.abx ++
          "</b>. Consider alternative therapy.</li>")) ++ "</ul>") := by
  obtain ⟨cols, row0, rows, rfl, hfa⟩ :=
    upload_csv_ok_forall₂ models expected uuid4 f out hrun
  rw [mkOutput_rows] at hbin
  simp only [mkOutput_rows, mkOutput_tips]
  refine ⟨forall₂_map_fst hfa, ?_, tipsFor_eq_noRes_iff rows, ?_⟩
  · intro r hr
    rcases hbin r hr with h0 | h1
    · simp [csvRowFor, h0]
    · simp [csvRowFor, h1]
  · rintro ⟨r, hr, hp⟩
    unfold tipsFor
    rw [if_pos (List.any_eq_true.mpr ⟨r, hr, by simp [hp]⟩)]

/-- C8 witness: registry `[Amoxicillin ↦ resistant, Nitrofurantoin ↦
sensitive]`: the summary lists exactly Amoxicillin, in registry order, and
is not the fixed message. -/
theorem c8_summary_witness :
    ∃ out, upload_csv [("Amoxicillin", mRes), ("Nitrofurantoin", mSens)] ["f"] "u"
        ⟨["f"], [[1]]⟩ = .ok out ∧
      (out.rows.map (fun r => r.abx) = ["Amoxicillin", "Nitrofurantoin"]) ∧
      (out.tips = noResistanceMsg ↔ ∀ r ∈ out.rows, r.pred = 0) ∧
      ((∃ r ∈ out.rows, r.pred = 1) →
        out.tips = "<ul>" ++ String.join ((out.rows.filter (fun r => r.pred = 1)).map
          (fun r => "<li>Avoid prescribing <b>" ++ r.abx ++
            "</b>. Consider alternative therapy.</li>")) ++ "</ul>") := by
  have hok : (upload_csv [("Amoxicillin", mRes), ("Nitrofurantoin", mSens)] ["f"] "u"
      ⟨["f"], [[1]]⟩).toOption.isSome = true := by decide
  obtain ⟨out, hout⟩ := Option.isSome_iff_exists.mp hok
  rw [except_toOption_some] at hout
  have hpreds : (upload_csv [("Amoxicillin", mRes), ("Nitrofurantoin", mSens)] ["f"] "u"
      ⟨["f"], [[1]]⟩).map (fun o => o.rows.map (fun r => r.pred)) = .ok [1, 0] := by decide
  rw [hout, except_map_ok] at hpreds
  have hlist : out.rows.map (fun r => r.pred) = [1, 0] := by
    injection hpreds
  have hbin : ∀ r ∈ out.rows, r.pred = 0 ∨ r.pred = 1 := by
    intro r hr
    have hm : r.pred ∈ out.rows.map (fun r => r.pred) := List.mem_map_of_mem _ hr
    rw [hlist] at hm
    rcases List.mem_cons.mp hm with h | h
    · exact Or.inr h
    · exact Or.inl (by simpa using h)
  obtain ⟨h1, _, h3, h4⟩ := c8_summary [("Amoxicillin", mRes), ("Nitrofurantoin", mSens)]
    ["f"] "u" ⟨["f"], [[1]]⟩ out hout hbin
  exact ⟨out, hout, by simpa using h1, h3, h4⟩

/-! ### Claim C10 -/

/-- C10: for every non-resistant label, the tabular export and the PDF line
render the verdict `"Sensitive"` with the probability to two decimal places,
while the interactive pill renders the same `(pred, prob)` pair as
`"susceptible"` with the probability to zero decimal places — the two
render targets disagree on both the verdict label and the displayed
precision (`"Sensitive" ≠ "susceptible"`, and e.g. 0.03 renders as
`3.00%` against `3%`). -/
theorem c10_render_disagreement (models : List (String × Model))
    (expected : List String) (uuid4 : String) (f : Frame) (out : Output)
    (hrun : upload_csv models expected uuid4 f = .ok out) :
    (∀ r ∈ out.rows, r.pred = 0 →
      csvRowFor r = (r.abx, "Sensitive", pct r.prob 2) ∧
      (r.abx, "Sensitive", pct r.prob 2) ∈ out.csv_rows ∧
      (r.abx ++ ": " ++ "Sensitive" ++ " (" ++ pct r.prob 2 ++ ")") ∈ out.pdf_lines ∧
      pillFor r.abx r.pred r.prob = pillSens r.abx r.prob) ∧
    out.pill_html = String.join (out.rows.map (fun r => pillFor r.abx r.pred r.prob)) ∧
    ("Sensitive" : String) ≠ "susceptible" ∧
    pct q03 2 = "3.00%" ∧ pct q03 0 = "3%" := by
  obtain ⟨cols, row0, rows, rfl, -⟩ :=
    upload_csv_ok_forall₂ models expected uuid4 f out hrun
  refine ⟨?_, mkOutput_pill_html _ _, by decide, by decide, by decide⟩
  intro r hr hp
  rw [mkOutput_rows] at hr
  have hcsv : csvRowFor r = (r.abx, "Sensitive", pct r.prob 2) := by
    simp [csvRowFor, hp]
  refine ⟨hcsv, ?_, ?_, ?_⟩
  · rw [mkOutput_csv_rows]
    exact hcsv ▸ List.mem_map_of_mem csvRowFor hr
  · rw [mkOutput_pdf_lines]
    refine List.mem_cons_of_mem _ ?_
    have h1 : pdfLineFor (csvRowFor r)
        = r.abx ++ ": " ++ "Sensitive" ++ " (" ++ pct r.prob 2 ++ ")" := by
      rw [hcsv]
      rfl
    exact h1 ▸ List.mem_map_of_mem pdfLineFor (List.mem_map_of_mem csvRowFor hr)
  · simp [pillFor, pillSens, hp]

/-- C10 witness: a sensitive prediction with probability 0.03 renders as
`("Nitrofurantoin", "Sensitive", "3.00%")` in the CSV and as
`susceptible (3%)` in the interactive pill. -/
theorem c10_render_disagreement_witness :
    (∃ out, upload_csv [("Nitrofurantoin", mSens)] ["f"] "u" ⟨["f"], [[1]]⟩ = .ok out ∧
      (∀ r ∈ out.rows, r.pred = 0 →
        csvRowFor r = (r.abx, "Sensitive", pct r.prob 2) ∧
        (r.abx, "Sensitive", pct r.prob 2) ∈ out.csv_rows ∧
        (r.abx ++ ": " ++ "Sensitive" ++ " (" ++ pct r.prob 2 ++ ")") ∈ out.pdf_lines ∧
        pillFor r.abx r.pred r.prob = pillSens r.abx r.prob)) ∧
    (upload_csv [("Nitrofurantoin", mSens)] ["f"] "u" ⟨["f"], [[1]]⟩).map
        (fun o => o.csv_rows) = .ok [("Nitrofurantoin", "Sensitive", "3.00%")] ∧
    (upload_csv [("Nitrofurantoin", mSens)] ["f"] "u" ⟨["f"], [[1]]⟩).map
        (fun o => o.pill_html)
      = .ok ("<div class=\x27pill susceptible\x27>Nitrofurantoin&nbsp;&nbsp;susceptible (3%)</div>") := by
  refine ⟨?_, by decide, by decide⟩
  have hok : (upload_csv [("Nitrofurantoin", mSens)] ["f"] "u"
      ⟨["f"], [[1]]⟩).toOption.isSome = true := by decide
  obtain ⟨out, hout⟩ := Option.isSome_iff_exists.mp hok
  rw [except_toOption_some] at hout
  obtain ⟨h1, -⟩ := c10_render_disagreement [("Nitrofurantoin", mSens)] ["f"] "u"
    ⟨["f"], [[1]]⟩ out hout
  exact ⟨out, hout, h1⟩

/-! ### Claim C6: stability of the attribution sort -/

theorem orderedInsert_lex {α : Type} (key : α → ℚ) (tie : α → α → Prop)
    (le : α → α → Prop) [DecidableRel le] (hle : ∀ a b, le a b ↔ key a ≤ key b)
    (x : α) (s : List α)
    (hs : List.Pairwise (fun a b => key a < key b ∨ (key a = key b ∧ tie a b)) s)
    (hx : ∀ y ∈ s, key x = key y → tie x y) :
    List.Pairwise (fun a b => key a < key b ∨ (key a = key b ∧ tie a b))
      (List.orderedInsert le x s) := by
  induction s with
  | nil => simp [List.orderedInsert]
  | cons b t ih =>
    rw [List.orderedInsert]
    by_cases h : le x b
    · rw [if_pos h]
      have h2 := (hle x b).mp h
      refine List.Pairwise.cons ?_ hs
      intro z hz
      rcases List.mem_cons.mp hz with rfl | hzt
      · rcases lt_or_eq_of_le h2 with hlt | heq
        · exact Or.inl hlt
        · exact Or.inr ⟨heq, hx z (List.mem_cons_self ..) heq⟩
      · have hbz := (List.pairwise_cons.mp hs).1 z hzt
        rcases hbz with hlt | ⟨heq, -⟩
        · rcases lt_or_eq_of_le h2 with h3 | h3
          · exact Or.inl (h3.trans hlt)
          · exact Or.inl (h3 ▸ hlt)
        · rcases lt_or_eq_of_le h2 with h3 | h3
          · exact Or.inl (heq ▸ h3)
          · exact Or.inr ⟨h3.trans heq,
              hx z (List.mem_cons_of_mem _ hzt) (h3.trans heq)⟩
    · rw [if_neg h]
      have h2 : key b < key x := lt_of_not_le (fun hc => h ((hle x b).mpr hc))
      refine List.Pairwise.cons ?_
        (ih (List.pairwise_cons.mp hs).2
          (fun y hy heq => hx y (List.mem_cons_of_mem _ hy) heq))
      intro z hz
      rcases (List.mem_orderedInsert _).mp hz with rfl | hzt
      · exact Or.inl h2
      · exact (List.pairwise_cons.mp hs).1 z hzt

theorem insertionSort_lex {α : Type} (key : α → ℚ) (tie : α → α → Prop)
    (le : α → α → Prop) [DecidableRel le] (hle : ∀ a b, le a b ↔ key a ≤ key b)
    (L : List α) (h : List.Pairwise (fun a b => key a = key b → tie a b) L) :
    List.Pairwise (fun a b => key a < key b ∨ (key a = key b ∧ tie a b))
      (List.insertionSort le L) := by
  induction L with
  | nil => constructor
  | cons x t ih =>
    rw [List.insertionSort]
    refine orderedInsert_lex key tie le hle x _ (ih (List.pairwise_cons.mp h).2) ?_
    intro y hy heq
    have hy2 : y ∈ t := (List.perm_insertionSort _ t).subset hy
    exact (List.pairwise_cons.mp h).1 y hy2 heq

theorem enumFrom_pairwise_fst {α : Type} (n : ℕ) (l : List α) :
    List.Pairwise (fun a b : ℕ × α => a.1 < b.1) (List.enumFrom n l) := by
  induction l generalizing n with
  | nil => constructor
  | cons x t ih =>
    rw [List.enumFrom]
    refine List.Pairwise.cons ?_ (ih (n + 1))
    rintro ⟨i, a⟩ hz
    have := (List.mem_enumFrom hz).1
    simpa using this

set_option maxHeartbeats 1600000 in
theorem topIdx_pairwise (cols : List String) (sv : List ℚ) :
    List.Pairwise (fun a b : ℕ × (String × ℚ) =>
        |b.2.2| < |a.2.2| ∨ (|b.2.2| = |a.2.2| ∧ a.1 < b.1))
      (topIdx cols sv) := by
  unfold topIdx
  refine List.Pairwise.sublist (List.take_sublist 5 _) ?_
  rw [List.pairwise_reverse]
  have hidx : List.Pairwise (fun a b : ℕ × (String × ℚ) => b.1 < a.1)
      ((cols.zip sv).enum.reverse) := by
    rw [List.pairwise_reverse]
    exact enumFrom_pairwise_fst 0 (cols.zip sv)
  have hidx2 : List.Pairwise (fun a b : ℕ × (String × ℚ) =>
      |a.2.2| = |b.2.2| → b.1 < a.1) ((cols.zip sv).enum.reverse) := by
    refine List.Pairwise.imp ?_ hidx
    intro a b h heq
    exact h
  exact insertionSort_lex (fun p : ℕ × (String × ℚ) => |p.2.2|)
    (fun a b => b.1 < a.1)
    (fun a b : ℕ × (String × ℚ) => |a.2.2| ≤ |b.2.2|) (fun a b => Iff.rfl)
    ((cols.zip sv).enum.reverse) hidx2

theorem topFeatures_eq_topIdx (cols : List String) (sv : List ℚ) :
    topFeatures cols sv = (topIdx cols sv).map Prod.snd := by
  unfold topFeatures topIdx sortValuesDescAbs
  rw [List.map_take, List.map_reverse,
    List.map_insertionSort _ (fun a b : String × ℚ => |a.2| ≤ |b.2|) Prod.snd _
      (fun a _ b _ => Iff.rfl),
    List.map_reverse, List.enum_map_snd]

theorem topFeatures_length_le (cols : List String) (sv : List ℚ) :
    (topFeatures cols sv).length ≤ 5 := by
  unfold topFeatures
  exact List.length_take_le 5 _

theorem topFeatures_sorted (cols : List String) (sv : List ℚ) :
    List.Pairwise (fun a b : String × ℚ => |b.2| ≤ |a.2|) (topFeatures cols sv) := by
  rw [topFeatures_eq_topIdx]
  refine List.Pairwise.map Prod.snd ?_ (topIdx_pairwise cols sv)
  rintro a b (h | ⟨heq, -⟩)
  · exact le_of_lt h
  · exact le_of_eq heq

/-- C6: the attribution list never exceeds five entries; it is ordered by
non-increasing absolute contribution, with ties broken by the feature's
original position in the frame (the indexed ranking is strictly
lexicographic in (|contribution| descending, original index ascending),
matching pandas' reverse/stable-argsort/reverse descending sort); and in
every successful run an explanation exists exactly for rows with
`pred = 1` — rows with any other verdict carry no attribution list. -/
theorem c6_attribution_ranking :
    (∀ (cols : List String) (sv : List ℚ),
      (topFeatures cols sv).length ≤ 5 ∧
      List.Pairwise (fun a b : String × ℚ => |b.2| ≤ |a.2|) (topFeatures cols sv) ∧
      topFeatures cols sv = (topIdx cols sv).map Prod.snd ∧
      List.Pairwise (fun a b : ℕ × (String × ℚ) =>
          |b.2.2| < |a.2.2| ∨ (|b.2.2| = |a.2.2| ∧ a.1 < b.1)) (topIdx cols sv)) ∧
    (∀ models expected uuid4 f out,
      upload_csv models expected uuid4 f = .ok out →
      ∀ r ∈ out.rows,
        (r.pred ≠ 1 → r.expl = none) ∧
        (r.pred = 1 → ∃ cols sv, r.expl
            = some (explanationHtml (pySlice8 uuid4) r.abx (topFeatures cols sv)))) := by
  constructor
  · intro cols sv
    exact ⟨topFeatures_length_le cols sv, topFeatures_sorted cols sv,
      topFeatures_eq_topIdx cols sv, topIdx_pairwise cols sv⟩
  · intro models expected uuid4 f out hrun r hr
    obtain ⟨cols, row0, rows, rfl, hfa⟩ :=
      upload_csv_ok_forall₂ models expected uuid4 f out hrun
    rw [mkOutput_rows] at hr
    obtain ⟨p, hp, hspec⟩ := forall₂_exists_left hfa r hr
    obtain ⟨habx, -, -, hcase⟩ := hspec
    rcases hcase with ⟨hne, hnone⟩ | ⟨h1, sv, hs, hsome⟩
    · exact ⟨fun _ => hnone, fun heq => absurd heq hne⟩
    · exact ⟨fun hne => absurd h1 hne, fun _ => ⟨cols, sv, by rw [hsome, habx]⟩⟩

/-- C6 witness: a concrete ranking (with a tie kept in original feature
order) and a concrete run where only the resistant label carries an
explanation. -/
theorem c6_attribution_ranking_witness :
    ((topFeatures ["a", "b", "c"] [1, -2, 1]).length ≤ 5 ∧
      List.Pairwise (fun a b : String × ℚ => |b.2| ≤ |a.2|)
        (topFeatures ["a", "b", "c"] [1, -2, 1]) ∧
      topFeatures ["a", "b", "c"] [1, -2, 1] = [("b", -2), ("a", 1), ("c", 1)]) ∧
    (∃ out, upload_csv [("Amoxicillin", mRes), ("Nitrofurantoin", mSens)]
        ["f", "g"] "u" ⟨["f", "g"], [[1, 2]]⟩ = .ok out ∧
      ∀ r ∈ out.rows,
        (r.pred ≠ 1 → r.expl = none) ∧
        (r.pred = 1 → ∃ cols sv, r.expl
            = some (explanationHtml (pySlice8 "u") r.abx (topFeatures cols sv)))) := by
  obtain ⟨h1, h2⟩ := c6_attribution_ranking
  refine ⟨⟨(h1 _ _).1, (h1 _ _).2.1, by decide⟩, ?_⟩
  have hok : (upload_csv [("Amoxicillin", mRes), ("Nitrofurantoin", mSens)]
      ["f", "g"] "u" ⟨["f", "g"], [[1, 2]]⟩).toOption.isSome = true := by decide
  obtain ⟨out, hout⟩ := Option.isSome_iff_exists.mp hok
  rw [except_toOption_some] at hout
  exact ⟨out, hout, h2 _ _ _ _ out hout⟩

/-! ### Claim C7 -/

theorem stripped_count_one (expected st : List String)
    (h1 : ∀ e ∈ expected, e ∈ st)
    (h2 : (st.filter (fun c => decide (c ∈ expected))).Nodup)
    (e : String) (he : e ∈ expected) : st.count e = 1 := by
  have hmem : e ∈ st.filter (fun c => decide (c ∈ expected)) :=
    List.mem_filter.mpr ⟨h1 e he, by simpa using he⟩
  have hone := List.count_eq_one_of_mem h2 hmem
  rwa [List.count_filter (by simpa using he)] at hone

theorem filter_eq_singleton_of_count_one {α : Type} (key : α → String)
    (l : List α) (e : String) (hcnt : (l.map key).count e = 1) :
    ∃ p, l.filter (fun a => decide (key a = e)) = [p] ∧ key p = e := by
  induction l with
  | nil => simp at hcnt
  | cons a t ih =>
    by_cases h : key a = e
    · have ht : (t.map key).count e = 0 := by
        rw [List.map_cons, List.count_cons] at hcnt
        simp only [h, beq_self_eq_true, if_pos] at hcnt
        omega
      have htf : t.filter (fun a => decide (key a = e)) = [] := by
        rw [List.filter_eq_nil_iff]
        intro x hx
        simp only [decide_eq_true_eq]
        intro hkey
        have : e ∈ t.map key := List.mem_map.mpr ⟨x, hx, hkey⟩
        rw [← List.count_pos_iff] at this
        omega
      exact ⟨a, by rw [List.filter_cons_of_pos (by simpa using h), htf], h⟩
    · have ht : (t.map key).count e = 1 := by
        rw [List.map_cons, List.count_cons] at hcnt
        simpa [h] using hcnt
      obtain ⟨p, hp1, hp2⟩ := ih ht
      exact ⟨p, by rw [List.filter_cons_of_neg (by simpa using h)]; exact hp1, hp2⟩

theorem getD_indexOf_filter {α : Type} (key : α → String) (val : α → ℚ)
    (l : List α) (e : String) (p : α)
    (hfil : l.filter (fun a => decide (key a = e)) = [p]) :
    (l.map val).getD ((l.map key).indexOf e) 0 = val p := by
  induction l with
  | nil => cases hfil
  | cons a t ih =>
    by_cases h : key a = e
    · rw [List.filter_cons_of_pos (by simpa using h)] at hfil
      injection hfil with h1 h2
      subst h1
      simp [List.map_cons, List.indexOf_cons, show (key a == e) = true by simpa using h]
    · rw [List.filter_cons_of_neg (by simpa using h)] at hfil
      rw [List.map_cons, List.map_cons, List.indexOf_cons,
        show (key a == e) = false by simpa using h, Bool.cond_false,
        List.getD_cons_succ]
      exact ih hfil

theorem getD_indexOf_map_eq_of_perm {α : Type} (key : α → String) (val : α → ℚ)
    (l l' : List α) (hperm : l.Perm l') (e : String)
    (hcnt : (l.map key).count e = 1) :
    (l.map val).getD ((l.map key).indexOf e) 0
      = (l'.map val).getD ((l'.map key).indexOf e) 0 := by
  obtain ⟨p, hp, -⟩ := filter_eq_singleton_of_count_one key l e hcnt
  have hcnt' : (l'.map key).count e = 1 := by
    rw [← (hperm.map key).count_eq]
    exact hcnt
  obtain ⟨p', hp', -⟩ := filter_eq_singleton_of_count_one key l' e hcnt'
  have hpp : p = p' := by
    have hfp := hperm.filter (fun a => decide (key a = e))
    rw [hp, hp'] at hfp
    have := List.perm_singleton.mp hfp
    injection this
  rw [getD_indexOf_filter key val l e p hp, getD_indexOf_filter key val l' e p' hp',
    hpp]

/-- C7 (amended): for every raw row that contains every schema feature
after whitespace stripping, and in which no two raw columns strip to the
same schema-matching name, reconciliation produces exactly the schema's
features in schema order, each value fetched by stripped column name
(extraneous columns dropped); consequently the result is invariant under
any permutation of the raw (name, value) columns, i.e. independent of the
input column order.  When two raw columns strip to the same schema name,
pandas label-selection instead retains and multiplies the duplicates (see
the counterexample), which is the one deviation from the claim. -/
theorem c7_reconcile_schema_order (expected : List String) (f : Frame)
    (h1 : ∀ e ∈ expected, e ∈ f.cols.map pyStrip)
    (h2 : ((f.cols.map pyStrip).filter (fun c => decide (c ∈ expected))).Nodup) :
    (reconcile expected f = .ok ⟨expected,
      f.rows.map (fun r => expected.map (fun e =>
        r.getD ((f.cols.map pyStrip).indexOf e) 0))⟩) ∧
    (∀ l l' : List (String × ℚ), l.Perm l' →
      f.cols = l.map Prod.fst → f.rows = [l.map Prod.snd] →
      reconcile expected (mkRowFrame l') = reconcile expected f) := by
  refine ⟨reconcile_eq_ok expected f h1 h2, ?_⟩
  intro l l' hperm hcols hrows
  have hst : f.cols.map pyStrip = l.map (fun a => pyStrip a.1) := by
    rw [hcols, List.map_map]
    rfl
  have hst' : (l'.map Prod.fst).map pyStrip = l'.map (fun a => pyStrip a.1) := by
    rw [List.map_map]
    rfl
  have hpermst : (l.map (fun a => pyStrip a.1)).Perm (l'.map (fun a => pyStrip a.1)) :=
    hperm.map _
  have h1' : ∀ e ∈ expected, e ∈ (l'.map Prod.fst).map pyStrip := by
    intro e he
    rw [hst']
    exact hpermst.mem_iff.mp (by rw [← hst]; exact h1 e he)
  have h2' : (((l'.map Prod.fst).map pyStrip).filter
      (fun c => decide (c ∈ expected))).Nodup := by
    rw [hst']
    have hpf := hpermst.filter (fun c => decide (c ∈ expected))
    rw [← hpf.nodup_iff]
    rw [hst] at h2
    exact h2
  rw [reconcile_eq_ok expected (mkRowFrame l') h1' h2',
    reconcile_eq_ok expected f h1 h2]
  refine congrArg (fun z => Except.ok (Frame.mk expected z)) ?_
  rw [hrows]
  simp only [mkRowFrame, List.map_cons, List.map_nil]
  refine congrArg (fun z => [z]) ?_
  refine List.map_congr_left (fun e he => ?_)
  rw [hst', hst]
  have hcnt : (l.map (fun a => pyStrip a.1)).count e = 1 := by
    have := stripped_count_one expected (f.cols.map pyStrip) h1 h2 e he
    rwa [hst] at this
  exact (getD_indexOf_map_eq_of_perm (fun a => pyStrip a.1) Prod.snd l l' hperm e hcnt).symm

/-- C7 witness: schema `[age, bc]`, raw columns `["bc ", "extra", "age"]`
(out of order, whitespace, one extra column): reconciliation yields exactly
`[age, bc]` with the right values, and reordering the raw columns leaves
the result unchanged. -/
theorem c7_reconcile_schema_order_witness :
    reconcile ["age", "bc"] ⟨["bc ", "extra", "age"], [[5, 9, 34]]⟩
        = .ok ⟨["age", "bc"], [[34, 5]]⟩ ∧
    reconcile ["age", "bc"] (mkRowFrame [("age", 34), ("bc ", 5), ("extra", 9)])
        = reconcile ["age", "bc"] ⟨["bc ", "extra", "age"], [[5, 9, 34]]⟩ := by
  obtain ⟨hcan, hperm⟩ := c7_reconcile_schema_order ["age", "bc"]
    ⟨["bc ", "extra", "age"], [[5, 9, 34]]⟩ (by decide) (by decide)
  refine ⟨hcan.trans (by decide), ?_⟩
  exact hperm [("bc ", 5), ("extra", 9), ("age", 34)]
    [("age", 34), ("bc ", 5), ("extra", 9)] (by decide) rfl rfl

/-- C7 counterexample: the raw columns `["age", " age", "bc"]` contain every
schema feature of `["age", "bc"]` after stripping, yet reconciliation
returns five columns, not the schema: pandas label-selection retains and
multiplies the two columns whose stripped name is `age`, so the extraneous
duplicate is not dropped and the output is not exactly the schema. -/
theorem c7_counter_duplicate_stripped_names :
    reconcile ["age", "bc"] ⟨["age", " age", "bc"], [[1, 2, 3]]⟩
        = .ok ⟨["age", "age", "age", "age", "bc"], [[1, 2, 1, 2, 3]]⟩ ∧
    (∀ e ∈ (["age", "bc"] : List String),
      e ∈ (["age", " age", "bc"] : List String).map pyStrip) ∧
    (["age", "age", "age", "age", "bc"] : List String) ≠ ["age", "bc"] := by
  exact ⟨by decide, by decide, by decide⟩
